/-
  Verification of the GameManager repository's core behavior.

  Shallow embedding of the TypeScript frontend (src/src/...), the SQL
  migrations (src/src-tauri/migrations/...) and, where the Rust backend is
  not part of the sources, models built from the specification, together
  with theorems settling the specification's claims.
-/
import Mathlib

namespace GameManager

/-! ## Migrations (src/src-tauri/migrations)

`0001_init.sql` creates `games` with columns
`id, title, engine_type, path, runtime_version, created_at, updated_at`
(no `profile_key`).  `0002_add_profile_key.sql` runs
`ALTER TABLE games ADD COLUMN profile_key TEXT;` followed by
`UPDATE games SET profile_key = id WHERE profile_key IS NULL OR profile_key = '';`.
-/

/-- A `games` row as created by migration 0001: no `profile_key` column.
`runtime_version` is nullable (`Option`). -/
structure GameRow0001 where
  id : String
  title : String
  engine_type : String
  path : String
  runtime_version : Option String
  created_at : Int
  updated_at : Int
deriving Repr, DecidableEq

/-- A `games` row after migration 0002 added the nullable `profile_key`
column (`TEXT`, no default, hence `Option String`). -/
structure GameRow0002 where
  id : String
  title : String
  engine_type : String
  path : String
  runtime_version : Option String
  created_at : Int
  updated_at : Int
  profile_key : Option String
deriving Repr, DecidableEq

/-- `ALTER TABLE games ADD COLUMN profile_key TEXT`: every pre-existing row
gets `NULL` in the fresh column. -/
def addProfileKeyColumn (r : GameRow0001) : GameRow0002 :=
  { id := r.id, title := r.title, engine_type := r.engine_type, path := r.path
    runtime_version := r.runtime_version, created_at := r.created_at
    updated_at := r.updated_at, profile_key := none }

/-- `UPDATE games SET profile_key = id WHERE profile_key IS NULL OR profile_key = ''`
applied to one row. -/
def backfillProfileKey (r : GameRow0002) : GameRow0002 :=
  if r.profile_key = none ∨ r.profile_key = some "" then
    { r with profile_key := some r.id }
  else r

/-- Migration 0002 applied to a whole `games` table whose rows predate the
`profile_key` column: add the column (NULL everywhere), then backfill.
(The final `CREATE INDEX` statement does not change row data.) -/
def migration0002 (table : List GameRow0001) : List GameRow0002 :=
  (table.map addProfileKeyColumn).map backfillProfileKey

/-! ## Engine types (src/src/types/engine.ts and src/src/constants/engines.ts) -/

/-- The `EngineType` enum of `src/src/types/engine.ts` (string enum,
seven members). -/
inductive EngineType where
  | rpgMakerVX
  | rpgMakerVXAce
  | rpgMakerMV
  | rpgMakerMZ
  | nwjs
  | renPy
  | other
deriving Repr, DecidableEq

/-- The string value of each `EngineType` enum member. -/
def EngineType.value : EngineType → String
  | .rpgMakerVX => "rpgmakervx"
  | .rpgMakerVXAce => "rpgmakervxace"
  | .rpgMakerMV => "rpgmakermv"
  | .rpgMakerMZ => "rpgmakermz"
  | .nwjs => "nwjs"
  | .renPy => "renpy"
  | .other => "other"

/-- All members of the `EngineType` enum, in declaration order. -/
def engineTypeMembers : List EngineType :=
  [.rpgMakerVX, .rpgMakerVXAce, .rpgMakerMV, .rpgMakerMZ, .nwjs, .renPy, .other]

/-- The string values of the `EngineType` enum (the internal variant set at
string level). -/
def engineTypeValues : List String := engineTypeMembers.map EngineType.value

/-- `ENGINE_DISPLAY_NAMES` of `src/src/types/engine.ts`, as an association
list from enum string value to display name (object keys are the enum's
string values). -/
def ENGINE_DISPLAY_NAMES : List (String × String) :=
  [("rpgmakervx", "RPG Maker VX"),
   ("rpgmakervxace", "RPG Maker VX Ace"),
   ("rpgmakermv", "RPG Maker MV (NW.js)"),
   ("rpgmakermz", "RPG Maker MZ (NW.js)"),
   ("nwjs", "NWjs"),
   ("renpy", "RenPy"),
   ("other", "Other")]

/-- `SUPPORTED_ENGINES` of `src/src/constants/engines.ts` (note: it omits
`NWjs`). -/
def SUPPORTED_ENGINES : List EngineType :=
  [.rpgMakerVX, .rpgMakerVXAce, .rpgMakerMV, .rpgMakerMZ, .renPy, .other]

/-- `getEngineDisplayName` of `src/src/constants/engines.ts`:
`ENGINE_DISPLAY_NAMES[engineType as EngineType] || engineType`.  A missing
key gives `undefined` (falsy), so the raw input string is returned; every
present display name is a non-empty string (truthy). -/
def getEngineDisplayName (engineType : String) : String :=
  match ENGINE_DISPLAY_NAMES.lookup engineType with
  | some name => name
  | none => engineType

/-- `ENGINE_ICONS` of `src/src/constants/engines.ts` (no entry for
`nwjs`). -/
def ENGINE_ICONS : List (String × String) :=
  [("rpgmakervx", "ri:gamepad-line"),
   ("rpgmakervxace", "ri:gamepad-line"),
   ("rpgmakermv", "ri:gamepad-line"),
   ("rpgmakermz", "ri:gamepad-line"),
   ("renpy", "ri:book-2-line"),
   ("other", "ri:question-line")]

/-- `getEngineIcon` of `src/src/constants/engines.ts`:
`ENGINE_ICONS[engineType] || ENGINE_ICONS[EngineType.Other]` (all stored
icons are non-empty strings, hence truthy). -/
def getEngineIcon (engineType : String) : String :=
  match ENGINE_ICONS.lookup engineType with
  | some icon => icon
  | none => (ENGINE_ICONS.lookup "other").getD ""

/-! ## Boundary record shapes (src/src/types/engine.ts)

The TypeScript interfaces are embedded both as Lean structures and, for
claims about which fields a record carries across the command boundary, as
lists of field names copied from the interface declarations. -/

/-- The `GameDto` interface of `src/src/types/engine.ts`. -/
structure GameDto where
  id : String
  title : String
  engineType : String
  path : String
  pathValid : Bool
  runtimeVersion : Option String
  coverPath : Option String
  createdAt : Int
  lastPlayedAt : Option Int
deriving Repr, DecidableEq

/-- The field names of the `GameDto` interface, in declaration order. -/
def gameDtoFields : List String :=
  ["id", "title", "engineType", "path", "pathValid",
   "runtimeVersion", "coverPath", "createdAt", "lastPlayedAt"]

/-- The `GameConfig` interface of `src/src/types/engine.ts`
(the per-game launch configuration persisted as `settings.toml`). -/
structure GameConfig where
  engineType : String
  entryPath : String
  runtimeVersion : Option String
  args : List String
  sandboxHome : Bool
  coverFile : Option String
deriving Repr, DecidableEq

/-- The field names of the `GameConfig` interface, in declaration order. -/
def gameConfigFields : List String :=
  ["engineType", "entryPath", "runtimeVersion", "args", "sandboxHome", "coverFile"]

/-! ## Registry model (Modelled from the spec)

The Rust backend implementing the `import_game_dir` / `get_game` commands is
not among the sources; only its SQL migrations and TypeScript callers are.
-/

/-- Modelled from the spec: the registry **Game** entity of §3
(`id, title, engineType, path, profileKey, runtimeVersion?, coverImagePath?,
createdAt, updatedAt, lastPlayedAt?`; `profileKey` defaults to `id`). -/
structure Game where
  id : String
  title : String
  engineType : String
  path : String
  profileKey : String
  runtimeVersion : Option String
  coverImagePath : Option String
  createdAt : Int
  updatedAt : Int
  lastPlayedAt : Option Int
deriving Repr, DecidableEq

/-- Modelled from the spec: the Registry's `games` table. -/
structure Registry where
  games : List Game
deriving Repr, DecidableEq

/-- Modelled from the spec: §4.2 `import(path, engineType)` — missing
backend command `import_game_dir`.  It "derives a title from the directory
name if none supplied, assigns a new id and profileKey, inserts the Game,
and returns it"; `profileKey` "defaults to id" (§3). -/
def importGame (reg : Registry) (freshId : String) (now : Int)
    (path engineType : String) : Registry × Game :=
  let g : Game :=
    { id := freshId, title := path, engineType := engineType, path := path
      profileKey := freshId, runtimeVersion := none, coverImagePath := none
      createdAt := now, updatedAt := now, lastPlayedAt := none }
  ({ games := g :: reg.games }, g)

/-- Modelled from the spec: §6 `getGame id -> Game?` — missing backend
command `get_game`; resolves a Game by id in the Registry. -/
def getGame (reg : Registry) (id : String) : Option Game :=
  reg.games.find? (fun g => g.id == id)

/-! ## Command-invocation wrappers (src/src/lib/tauri.ts)

`formatInvokeError` inspects an arbitrary JavaScript value, so the embedding
models the JavaScript value domain as seen by that function: strings, `Error`
instances, other non-null objects (with their `message` field, the outcome of
`JSON.stringify` on them, and their `String(...)` rendering), `null`,
`undefined`, numbers and booleans. -/

/-- Outcome of `JSON.stringify(x)`: a string, the value `undefined`
(e.g. `JSON.stringify(undefined)`), or a thrown exception (e.g. circular
structures). -/
inductive JsonResult where
  | str (s : String)
  | undef
  | thrown
deriving Repr, DecidableEq

/-- The `message` property of a non-`Error` object: absent, a string value,
or present with a non-string value. -/
inductive MsgField where
  | absent
  | strVal (s : String)
  | nonString
deriving Repr, DecidableEq

/-- An arbitrary non-null, non-`Error` JavaScript object, described by the
three observations `formatInvokeError` can make of it. -/
structure JSObjectData where
  msgField : MsgField
  jsonResult : JsonResult
  toStringRepr : String
deriving Repr, DecidableEq

/-- A JavaScript value as discriminated by `formatInvokeError`. -/
inductive JSVal where
  | str (s : String)
  | errorVal (message : String)
  | object (o : JSObjectData)
  | nullVal
  | undef
  | num (n : Int)
  | boolVal (b : Bool)
deriving Repr, DecidableEq

/-- Whether a JavaScript value is a string (`typeof x === "string"`). -/
def JSVal.isString : JSVal → Bool
  | .str _ => true
  | _ => false

/-- `JSON.stringify` restricted to the modelled values.  Strings, numbers,
booleans and `null` serialize to a string without throwing; `undefined`
serializes to `undefined`; an arbitrary object carries its own outcome. -/
def jsonStringify : JSVal → JsonResult
  | .str s => .str (String.quote s)
  | .errorVal _ => .str "\x7b\x7d"
  | .object o => o.jsonResult
  | .nullVal => .str "null"
  | .undef => .undef
  | .num n => .str (toString n)
  | .boolVal b => .str (toString b)

/-- The `try { return JSON.stringify(err) } catch { return String(err) }`
tail of `formatInvokeError`: on a throw, fall back to `String(err)`; when
`JSON.stringify` returns `undefined`, that `undefined` is returned as-is. -/
def jsonFallback (err : JSVal) (toStringRepr : String) : JSVal :=
  match jsonStringify err with
  | .str s => .str s
  | .undef => .undef
  | .thrown => .str toStringRepr

/-- `String(x)` for the modelled values (total here; objects carry their own
rendering). -/
def jsToString : JSVal → String
  | .str s => s
  | .errorVal m => "Error: " ++ m
  | .object o => o.toStringRepr
  | .nullVal => "null"
  | .undef => "undefined"
  | .num n => toString n
  | .boolVal b => toString b

/-- `formatInvokeError` of `src/src/lib/tauri.ts`.  Branches in source
order: string values are returned as-is; `Error` instances yield their
`message`; other truthy objects yield their `message` property when it is a
string with non-empty trim; otherwise `JSON.stringify(err)`, falling back to
`String(err)` when stringification throws.  (`null` fails the
`err && typeof err === "object"` guard; numbers and booleans fail the
`typeof` test.) -/
def formatInvokeError (err : JSVal) : JSVal :=
  match err with
  | .str s => .str s
  | .errorVal m => .str m
  | .object o =>
    match o.msgField with
    | .strVal s =>
      if 0 < s.trim.length then .str s else jsonFallback err o.toStringRepr
    | _ => jsonFallback err o.toStringRepr
  | e => jsonFallback e (jsToString e)

/-- The inputs on which `formatInvokeError` falls through to a
`JSON.stringify` call that returns `undefined` (so the function itself
returns `undefined` rather than a string). -/
def fallsToUndef (err : JSVal) : Bool :=
  match err with
  | .undef => true
  | .object o =>
    match o.msgField with
    | .strVal s => decide (s.trim.length = 0) && decide (o.jsonResult = .undef)
    | _ => decide (o.jsonResult = .undef)
  | _ => false

/-- The `InvokeResult<T>` type of `src/src/lib/tauri.ts`, with the error
field at its runtime type (the value `formatInvokeError` actually
produced). -/
inductive InvokeResultJS (T : Type) where
  | ok (data : T)
  | err (error : JSVal)
deriving Repr, DecidableEq

/-- The outcome of the underlying `invoke` call: a value, or a thrown
JavaScript value. -/
def InvokeOutcome (T : Type) := Except JSVal T

/-- `invokeResult` of `src/src/lib/tauri.ts`: wraps the `invoke` outcome,
catching any thrown value and formatting it. -/
def invokeResult {T : Type} (outcome : InvokeOutcome T) : InvokeResultJS T :=
  match outcome with
  | .ok data => .ok data
  | .error e => .err (formatInvokeError e)

/-- `safeInvoke` of `src/src/lib/tauri.ts`: the value on success, `null` on
any thrown value. -/
def safeInvoke {T : Type} (outcome : InvokeOutcome T) : Option T :=
  match outcome with
  | .ok data => some data
  | .error _ => none

/-! ## Game settings dialog (src/unnamed/part_009 and part_010)

`loadLaunchConfig` invokes `get_game_launch_config` and stores the result in
two pieces of local dialog state. At the TypeScript type level the result of
`invokeResult` carries a string error, which is how its consumers see it. -/

/-- The TypeScript-level view of `InvokeResult<T>` (error typed `string`),
as consumed by the dialog code. -/
inductive InvokeResult (T : Type) where
  | ok (data : T)
  | err (error : String)
deriving Repr, DecidableEq

/-- The payload of the `get_game_launch_config` command as the dialog reads
it: `{ args: string[]; sandboxHome: boolean }`, with `args` possibly absent
(the code guards with `res.data.args ?? []`). -/
structure LaunchConfigData where
  args : Option (List String)
  sandboxHome : Bool
deriving Repr, DecidableEq

/-- The dialog-local state written by `loadLaunchConfig`. -/
structure GameSettingsLocalState where
  launchArgsText : String
  sandboxHome : Bool
deriving Repr, DecidableEq

/-- `loadLaunchConfig` of `src/unnamed/part_009` (identical in
`part_010`): on a failed invoke the state becomes
`launchArgsText = ""`, `sandboxHome = true`; on success the returned
values are stored, joining `args ?? []` with newlines. -/
def loadLaunchConfig (res : InvokeResult LaunchConfigData) : GameSettingsLocalState :=
  match res with
  | .err _ => { launchArgsText := "", sandboxHome := true }
  | .ok d =>
    { launchArgsText := String.intercalate "\n" (d.args.getD [])
      sandboxHome := d.sandboxHome }

/-! ## App shell (src/src/App.vue, first script block)

`launchGame` consults the in-memory `games` list, refuses to issue the
`launch_game` command when the entry's `pathValid` flag is false, and
otherwise issues it and reports the outcome in the status bar. -/

/-- The `GameEntry` shape of `src/src/App.vue`. -/
structure GameEntry where
  id : String
  title : String
  engineType : String
  path : String
  pathValid : Bool
deriving Repr, DecidableEq

/-- The `TaskStatus` shape of `src/src/App.vue`. -/
structure TaskStatus where
  label : String
  progress : Nat
deriving Repr, DecidableEq

/-- The slice of `src/src/App.vue` state that `launchGame` touches. -/
structure AppState where
  games : List GameEntry
  currentTask : Option TaskStatus
deriving Repr, DecidableEq

/-- `setStatus` of `src/src/App.vue`: clamps progress into `[0, 100]` and
replaces the current task. -/
def setStatus (st : AppState) (label : String) (progress : Nat) : AppState :=
  { st with currentTask := some { label := label, progress := min 100 progress } }

/-- `launchGame` of `src/src/App.vue` (lines 224-239).  The second component
records whether the `launch_game` command was issued; `res` is the outcome
the backend would return if it were.  An absent id returns silently; an
entry with `pathValid = false` only sets a failure status. -/
def launchGame (st : AppState) (gameId : String) (res : InvokeResult Nat) :
    AppState × Bool :=
  match st.games.find? (fun g => g.id == gameId) with
  | none => (st, false)
  | some game =>
    if !game.pathValid then
      (setStatus st "启动失败：游戏路径无效" 0, false)
    else
      let st1 := setStatus st ("启动：" ++ game.title ++ "…") 0
      match res with
      | .err e => (setStatus st1 ("启动失败：" ++ e) 0, true)
      | .ok pid => (setStatus st1 ("已启动（PID " ++ toString pid ++ "）") 100, true)

/-! ## Game store (src/src/hooks/useGames.ts)

The composable keeps `games`, `loading` and `error` refs; each handler
awaits the corresponding API call (modelled by an `Except` outcome), mutates
the list only on success, and records the failure message otherwise. -/

/-- The `UpdateGameInput` interface of `src/src/types/engine.ts` (all fields
optional; forwarded to the backend unchanged). -/
structure UpdateGameInput where
  title : Option String
  engineType : Option String
  path : Option String
  runtimeVersion : Option String
deriving Repr, DecidableEq

/-- The state kept by `useGames` of `src/src/hooks/useGames.ts`. -/
structure GamesState where
  games : List GameDto
  loading : Bool
  error : Option String
deriving Repr, DecidableEq

/-- `handleUpdateGame` of `src/src/hooks/useGames.ts`: on success, replace
the entry at `findIndex(g => g.id === id)` (if any) with the game returned
by the backend and return `true`; on failure record the message and return
`false`.  The `finally` block clears `loading`. -/
def handleUpdateGame (st : GamesState) (id : String) (input : UpdateGameInput)
    (res : Except String GameDto) : GamesState × Bool :=
  match res with
  | .ok updatedGame =>
    let games' :=
      match st.games.findIdx? (fun g => g.id == id) with
      | some index => st.games.set index updatedGame
      | none => st.games
    ({ games := games', loading := false, error := none }, true)
  | .error msg => ({ games := st.games, loading := false, error := some msg }, false)

/-- `handleDeleteGame` of `src/src/hooks/useGames.ts`: on success, keep
exactly the entries whose id differs and return `true`; on failure record
the message and return `false`. -/
def handleDeleteGame (st : GamesState) (id : String)
    (res : Except String Unit) : GamesState × Bool :=
  match res with
  | .ok _ =>
    ({ games := st.games.filter (fun g => !(g.id == id))
       loading := false, error := none }, true)
  | .error msg => ({ games := st.games, loading := false, error := some msg }, false)

/-! ## Runtime Acquisition (Modelled from the spec, §4.3)

The Rust backend implementing `download_nwjs_stable` is not among the
sources.  The spec: "downloads to a temporary location, verifies
completeness, then atomically moves the verified artifact into its final
install directory and only then inserts the Engine row — so a crash or
failure at any point prior to the final move leaves the Registry and
install directory untouched". -/

/-- Modelled from the spec: an **Engine** row (§3). -/
structure EngineRow where
  id : String
  name : String
  version : String
  engineType : String
  installPath : String
  installedAt : Int
deriving Repr, DecidableEq

/-- Modelled from the spec: the state `downloadAndInstall` can affect — the
Registry's `engines` rows, the visible install directories, and the
temporary download location. -/
structure AcqState where
  engines : List EngineRow
  installDirs : List String
  tempFiles : List String
deriving Repr, DecidableEq

/-- Modelled from the spec: the §4.3 install state machine's working
states, in execution order; `moving` is the atomic move, `inserting` the
Engine-row insert that happens only after it. -/
inductive InstallStep where
  | resolving
  | downloading
  | verifying
  | moving
  | inserting
deriving Repr, DecidableEq

/-- The steps strictly prior to the final move of the verified artifact. -/
def InstallStep.beforeMove : InstallStep → Bool
  | .resolving => true
  | .downloading => true
  | .verifying => true
  | .moving => false
  | .inserting => false

/-- Modelled from the spec: §4.3 `downloadAndInstall(engineFamily, flavor)`
as a run of the state machine.  `failAt = some s` makes the run fail at
step `s` (after the effects of the earlier steps); `failAt = none` is a
successful run.  Resolving and verifying read external state; downloading
writes only the temporary location; the atomic move publishes the install
directory; only then is the Engine row inserted. -/
def downloadAndInstall (st : AcqState) (engineId family flavor version : String)
    (now : Int) (failAt : Option InstallStep) : Option String × AcqState :=
  let tempPath := family ++ "-" ++ version ++ "-" ++ flavor ++ ".part"
  let installDir := family ++ "-" ++ version ++ "-" ++ flavor
  if failAt = some .resolving then (some "DownloadFailed", st)
  else
    let st1 : AcqState := { st with tempFiles := tempPath :: st.tempFiles }
    if failAt = some .downloading then (some "DownloadFailed", st1)
    else if failAt = some .verifying then (some "DownloadFailed", st1)
    else if failAt = some .moving then
      (some "InstallConflict", { st1 with tempFiles := st1.tempFiles.erase tempPath })
    else
      let st2 : AcqState :=
        { st1 with tempFiles := st1.tempFiles.erase tempPath
                   installDirs := installDir :: st1.installDirs }
      if failAt = some .inserting then (some "RegistryIOError", st2)
      else
        (none, { st2 with engines :=
          { id := engineId, name := family, version := version
            engineType := family, installPath := installDir
            installedAt := now } :: st2.engines })

/-! ## Scanner (Modelled from the spec, §4.2)

The Rust backend implementing `scan_games` is not among the sources; only
its result shape (`ScanGamesResult` in src/src/types/engine.ts) and callers
are.  The spec: bounded-depth traversal from the root (depth 0 = the root
itself, never descending past `maxDepth`), classify each directory, count a
positive classification in `foundGames`, import it when its resolved path
is not yet registered (incrementing `imported`) and count it in
`skippedExisting` otherwise; unreadable directories are skipped without
aborting. -/

/-- The `ScanGamesResult` interface of `src/src/types/engine.ts`. -/
structure ScanGamesResult where
  scannedDirs : Nat
  foundGames : Nat
  imported : Nat
  skippedExisting : Nat
deriving Repr, DecidableEq

mutual
/-- Modelled from the spec: a directory as the Scanner sees it — its name,
whether it is readable, whether the Classifier recognizes a game in it, and
its subdirectories. -/
inductive DirTree where
  | node (name : String) (readable : Bool) (hasGame : Bool) (subdirs : DirForest)

/-- Modelled from the spec: a list of sibling directories. -/
inductive DirForest where
  | nil
  | cons (t : DirTree) (ts : DirForest)
end

/-- The output of a scan: the reported counters, the set of registered game
paths after the scan (the Registry restricted to what `scan` reads and
writes), and the visit trace — resolved path, depth, classifier verdict — of
every directory the traversal visited, with the classification flag. -/
structure ScanOut where
  result : ScanGamesResult
  registry : List (List String)
  visited : List (List String × Nat × Bool)

/-- One directory visit against the registered paths: a recognized game is
counted as found and either imported (path added) or skipped as existing.
Returns `(found, imported, skipped)` and the updated registered set. -/
def visitReg (fullPath : List String) (hasGame : Bool)
    (reg : List (List String)) : (Nat × Nat × Nat) × List (List String) :=
  if hasGame then
    if fullPath ∈ reg then ((1, 0, 1), reg) else ((1, 1, 0), fullPath :: reg)
  else ((0, 0, 0), reg)

mutual
/-- Modelled from the spec: scan one directory at `depth`, descending into
subdirectories only while `depth < maxDepth`; an unreadable directory is
skipped entirely. -/
def scanDir (maxDepth : Nat) (path : List String) (depth : Nat)
    (reg : List (List String)) : DirTree → ScanOut
  | .node name readable hasGame subdirs =>
    if readable then
      let fullPath := path ++ [name]
      let v := visitReg fullPath hasGame reg
      if depth < maxDepth then
        let rest := scanSubs maxDepth fullPath (depth + 1) v.2 subdirs
        { result :=
            { scannedDirs := 1 + rest.result.scannedDirs
              foundGames := v.1.1 + rest.result.foundGames
              imported := v.1.2.1 + rest.result.imported
              skippedExisting := v.1.2.2 + rest.result.skippedExisting }
          registry := rest.registry
          visited := (fullPath, depth, hasGame) :: rest.visited }
      else
        { result :=
            { scannedDirs := 1, foundGames := v.1.1
              imported := v.1.2.1, skippedExisting := v.1.2.2 }
          registry := v.2
          visited := [(fullPath, depth, hasGame)] }
    else
      { result := { scannedDirs := 0, foundGames := 0, imported := 0, skippedExisting := 0 }
        registry := reg
        visited := [] }

/-- Modelled from the spec: scan sibling directories in order, threading the
registered set through. -/
def scanSubs (maxDepth : Nat) (path : List String) (depth : Nat)
    (reg : List (List String)) : DirForest → ScanOut
  | .nil =>
    { result := { scannedDirs := 0, foundGames := 0, imported := 0, skippedExisting := 0 }
      registry := reg
      visited := [] }
  | .cons t ts =>
    let o1 := scanDir maxDepth path depth reg t
    let o2 := scanSubs maxDepth path depth o1.registry ts
    { result :=
        { scannedDirs := o1.result.scannedDirs + o2.result.scannedDirs
          foundGames := o1.result.foundGames + o2.result.foundGames
          imported := o1.result.imported + o2.result.imported
          skippedExisting := o1.result.skippedExisting + o2.result.skippedExisting }
      registry := o2.registry
      visited := o1.visited ++ o2.visited }
end

/-- Modelled from the spec: §4.2 `scan(root, maxDepth)` run against the set
`reg` of already-registered game paths; the root is visited at depth 0. -/
def scanGames (root : DirTree) (maxDepth : Nat)
    (reg : List (List String)) : ScanOut :=
  scanDir maxDepth [] 0 reg root

end GameManager

/-! ## Theorems -/

namespace GameManager

/-- C1: after migration 0002, every row of the migrated table has
`profile_key = some id`: the freshly added column is `NULL` on every
pre-existing row, so the backfill's `WHERE` clause matches every row. -/
theorem migration0002_backfills_profile_key (table : List GameRow0001) :
    ∀ r ∈ migration0002 table, r.profile_key = some r.id := by
  intro r hr
  simp only [migration0002, List.map_map, List.mem_map, Function.comp] at hr
  obtain ⟨r0, _, rfl⟩ := hr
  simp [backfillProfileKey, addProfileKeyColumn]

/-- Concrete instance of C1: a single pre-existing row. -/
def c1Row : GameRow0001 :=
  { id := "a1b2", title := "Foo", engine_type := "rpgmakermv", path := "/games/Foo"
    runtime_version := none, created_at := 0, updated_at := 0 }

/-- C1 witness: migration 0002 run on a one-row table backfills that row's
`profile_key` with its id. -/
theorem migration0002_backfills_profile_key_witness :
    (backfillProfileKey (addProfileKeyColumn c1Row)).profile_key =
      some (backfillProfileKey (addProfileKeyColumn c1Row)).id :=
  migration0002_backfills_profile_key [c1Row]
    (backfillProfileKey (addProfileKeyColumn c1Row)) (by decide)

/-- C6 counterexample: the `EngineType` enum contains a seventh member
`NWjs` beyond the claimed six-variant set, and `getEngineDisplayName` on an
unknown boundary string returns the string itself, which differs from the
display behavior of `Other`. -/
theorem engineType_claim_counterexample :
    "nwjs" ∈ engineTypeValues ∧
    "nwjs" ∉ ["rpgmakervx", "rpgmakervxace", "rpgmakermv",
              "rpgmakermz", "renpy", "other"] ∧
    getEngineDisplayName "steam" = "steam" ∧
    getEngineDisplayName "steam" ≠ getEngineDisplayName "other" := by
  refine ⟨by decide, by decide, rfl, by decide⟩

/-- C6 (amended): the enum's variant set is the seven values
`rpgmakervx, rpgmakervxace, rpgmakermv, rpgmakermz, nwjs, renpy, other`;
every boundary string outside it maps to the `Other` icon in icon lookup,
while display-name lookup returns the input string unchanged rather than
the `Other` display name. -/
theorem engineType_unknown_fallback (s : String) (h : s ∉ engineTypeValues) :
    engineTypeValues = ["rpgmakervx", "rpgmakervxace", "rpgmakermv",
                        "rpgmakermz", "nwjs", "renpy", "other"] ∧
    getEngineDisplayName s = s ∧
    getEngineIcon s = getEngineIcon "other" := by
  simp only [engineTypeValues, engineTypeMembers, List.map_cons, List.map_nil,
    EngineType.value, List.mem_cons, List.not_mem_nil, or_false, not_or] at h
  obtain ⟨h1, h2, h3, h4, h5, h6, h7⟩ := h
  have b1 : (s == "rpgmakervx") = false := by simp [h1]
  have b2 : (s == "rpgmakervxace") = false := by simp [h2]
  have b3 : (s == "rpgmakermv") = false := by simp [h3]
  have b4 : (s == "rpgmakermz") = false := by simp [h4]
  have b5 : (s == "nwjs") = false := by simp [h5]
  have b6 : (s == "renpy") = false := by simp [h6]
  have b7 : (s == "other") = false := by simp [h7]
  refine ⟨rfl, ?_, ?_⟩
  · simp [getEngineDisplayName, ENGINE_DISPLAY_NAMES, List.lookup,
      b1, b2, b3, b4, b5, b6, b7]
  · simp [getEngineIcon, ENGINE_ICONS, List.lookup, b1, b2, b3, b4, b6, b7]

/-- C6 witness: the amended fallback behavior at the unknown boundary
string `"steam2"`. -/
theorem engineType_unknown_fallback_witness :
    getEngineDisplayName "steam2" = "steam2" ∧
    getEngineIcon "steam2" = getEngineIcon "other" :=
  ⟨(engineType_unknown_fallback "steam2" (by decide)).2.1,
   (engineType_unknown_fallback "steam2" (by decide)).2.2⟩

/-- C7 counterexample: the per-game `GameConfig` interface carries no
`useCompatLayer` field (and no `compatProfileName` field). -/
theorem gameConfig_no_compat_fields :
    "useCompatLayer" ∉ gameConfigFields ∧
    "compatProfileName" ∉ gameConfigFields := by
  refine ⟨by decide, by decide⟩

/-- C7 (amended): the per-game launch configuration exchanged with
`get_game_settings` / `save_game_settings` has exactly the fields
`engineType, entryPath, runtimeVersion?, args (list of strings),
sandboxHome (boolean), coverFile?` — in particular it carries neither
`useCompatLayer` nor `compatProfileName`. -/
theorem gameConfig_field_shape :
    gameConfigFields =
      ["engineType", "entryPath", "runtimeVersion", "args", "sandboxHome", "coverFile"] ∧
    "useCompatLayer" ∉ gameConfigFields ∧
    "compatProfileName" ∉ gameConfigFields := by
  exact ⟨rfl, by decide, by decide⟩

/-- C5 counterexample: the `GameDto` interface returned over the command
boundary carries no `profileKey` field. -/
theorem gameDto_no_profileKey_field : "profileKey" ∉ gameDtoFields := by decide

/-- C5 (amended): `import(p, t)` followed by `getGame` on the new game's id
returns a Game whose `path` is `p`, whose `engineType` is `t`, and whose
registry-side `profileKey` equals its `id`; the `GameDto` value exchanged
over the command boundary, however, carries no `profileKey` field. -/
theorem import_then_getGame (reg : Registry) (freshId : String) (now : Int)
    (p t : String) :
    getGame (importGame reg freshId now p t).1 (importGame reg freshId now p t).2.id =
      some (importGame reg freshId now p t).2 ∧
    (importGame reg freshId now p t).2.path = p ∧
    (importGame reg freshId now p t).2.engineType = t ∧
    (importGame reg freshId now p t).2.profileKey = (importGame reg freshId now p t).2.id ∧
    "profileKey" ∉ gameDtoFields := by
  refine ⟨?_, rfl, rfl, rfl, by decide⟩
  simp [getGame, importGame]

/-- C8: when loading the persisted launch configuration fails, the dialog
state defaults to `sandboxHome = true` and an argument list equal to the
empty list (rendered as the empty text). -/
theorem loadLaunchConfig_defaults (e : String) :
    loadLaunchConfig (InvokeResult.err e) =
      { launchArgsText := String.intercalate "\n" ([] : List String)
        sandboxHome := true } := rfl

/-- C9 counterexample: `invoke` can reject with the value `undefined`, and
`formatInvokeError undefined` evaluates `JSON.stringify(undefined)`, which
returns `undefined` — not a string.  So `invokeResult` can yield an `error`
field that is not a string. -/
theorem formatInvokeError_undefined_not_string :
    formatInvokeError JSVal.undef = JSVal.undef ∧
    (formatInvokeError JSVal.undef).isString = false ∧
    invokeResult (Except.error JSVal.undef : InvokeOutcome Nat) =
      InvokeResultJS.err JSVal.undef :=
  ⟨rfl, rfl, rfl⟩

/-- C9 (amended): the wrappers are total and never propagate a thrown
value: `invokeResult` returns the data on success and otherwise an error
field computed by `formatInvokeError`, and `safeInvoke` returns the value
or `null`.  `formatInvokeError` never throws; it produces a string for
every input except those on which it falls through to a `JSON.stringify`
call that returns `undefined` (such as the thrown value `undefined`
itself), where it returns that `undefined` instead of a string. -/
theorem invoke_wrappers_total (T : Type) (d : T) (e : JSVal) :
    invokeResult (Except.ok d : InvokeOutcome T) = InvokeResultJS.ok d ∧
    invokeResult (Except.error e : InvokeOutcome T) =
      InvokeResultJS.err (formatInvokeError e) ∧
    safeInvoke (Except.ok d : InvokeOutcome T) = some d ∧
    safeInvoke (Except.error e : InvokeOutcome T) = none ∧
    (fallsToUndef e = false → (formatInvokeError e).isString = true) ∧
    (fallsToUndef e = true → formatInvokeError e = JSVal.undef) := by
  refine ⟨rfl, rfl, rfl, rfl, ?_, ?_⟩
  · intro h
    cases e with
    | object o =>
      obtain ⟨mf, jr, ts⟩ := o
      cases mf with
      | strVal s =>
        by_cases hs : 0 < s.trim.length
        · cases jr <;>
            simp_all [formatInvokeError, fallsToUndef, jsonFallback,
              jsonStringify, JSVal.isString]
        · have hz : s.trim.length = 0 := by omega
          cases jr <;>
            simp_all [formatInvokeError, fallsToUndef, jsonFallback,
              jsonStringify, JSVal.isString, hz]
      | absent =>
        cases jr <;>
          simp_all [formatInvokeError, fallsToUndef, jsonFallback,
            jsonStringify, JSVal.isString]
      | nonString =>
        cases jr <;>
          simp_all [formatInvokeError, fallsToUndef, jsonFallback,
            jsonStringify, JSVal.isString]
    | undef => simp [fallsToUndef] at h
    | _ => rfl
  · intro h
    cases e with
    | object o =>
      obtain ⟨mf, jr, ts⟩ := o
      cases mf with
      | strVal s =>
        by_cases hs : 0 < s.trim.length
        · have : s.trim.length ≠ 0 := by omega
          cases jr <;>
            simp_all [formatInvokeError, fallsToUndef, jsonFallback, jsonStringify]
        · have hz : s.trim.length = 0 := by omega
          cases jr <;>
            simp_all [formatInvokeError, fallsToUndef, jsonFallback,
              jsonStringify, hz]
      | absent =>
        cases jr <;>
          simp_all [formatInvokeError, fallsToUndef, jsonFallback, jsonStringify]
      | nonString =>
        cases jr <;>
          simp_all [formatInvokeError, fallsToUndef, jsonFallback, jsonStringify]
    | undef => rfl
    | _ => simp [fallsToUndef] at h

/-- C9 witness: the amended behavior at a successful call and at a thrown
string. -/
theorem invoke_wrappers_total_witness :
    invokeResult (Except.ok 0 : InvokeOutcome Nat) = InvokeResultJS.ok 0 ∧
    (formatInvokeError (JSVal.str "boom")).isString = true :=
  ⟨(invoke_wrappers_total Nat 0 (JSVal.str "boom")).1,
   (invoke_wrappers_total Nat 0 (JSVal.str "boom")).2.2.2.2.1 rfl⟩

/-- C2: launching a game whose `pathValid` flag is false sets an
invalid-path failure status, never issues the `launch_game` command (so
nothing is spawned and the backend cannot update `lastPlayedAt`), and
leaves the games list unchanged — whatever outcome the backend would have
produced. -/
theorem launchGame_invalid_path_no_spawn (st : AppState) (gameId : String)
    (res : InvokeResult Nat) (g : GameEntry)
    (hfind : st.games.find? (fun x => x.id == gameId) = some g)
    (hvalid : g.pathValid = false) :
    (launchGame st gameId res).2 = false ∧
    (launchGame st gameId res).1.games = st.games ∧
    (launchGame st gameId res).1.currentTask =
      some { label := "启动失败：游戏路径无效", progress := 0 } := by
  simp [launchGame, hfind, hvalid, setStatus]

/-- Concrete instance of C2: a registry entry whose path is invalid. -/
def c2Entry : GameEntry :=
  { id := "g1", title := "Foo", engineType := "rpgmakermv"
    path := "/games/Foo", pathValid := false }

/-- Concrete instance of C2: the app state holding only `c2Entry`. -/
def c2State : AppState := { games := [c2Entry], currentTask := none }

/-- C2 witness: the launch of `c2Entry` issues no command and leaves the
games list unchanged even if the backend would have returned pid 7. -/
theorem launchGame_invalid_path_no_spawn_witness :
    (launchGame c2State "g1" (InvokeResult.ok 7)).2 = false ∧
    (launchGame c2State "g1" (InvokeResult.ok 7)).1.games = c2State.games ∧
    (launchGame c2State "g1" (InvokeResult.ok 7)).1.currentTask =
      some { label := "启动失败：游戏路径无效", progress := 0 } :=
  launchGame_invalid_path_no_spawn c2State "g1" (InvokeResult.ok 7) c2Entry
    (by decide) rfl

/-- C10: the game store mutates only what each operation targets and
nothing on failure.  On a successful update, the list keeps its length and
every position either keeps its old entry or — only at the first position
whose entry's id matches — holds the game returned by the backend.  On a
successful delete, the result is a sublist of the old list containing no
entry of the deleted id and every entry of any other id.  On failure, both
handlers return `false` and leave the list unchanged. -/
theorem useGames_mutations_frame (st : GamesState) (id : String)
    (input : UpdateGameInput) (g' : GameDto) (msg : String) :
    ((handleUpdateGame st id input (Except.ok g')).2 = true ∧
      (handleUpdateGame st id input (Except.ok g')).1.games.length = st.games.length ∧
      (∀ j : Nat,
        (handleUpdateGame st id input (Except.ok g')).1.games[j]? = st.games[j]? ∨
        ((handleUpdateGame st id input (Except.ok g')).1.games[j]? = some g' ∧
          ∃ old, st.games[j]? = some old ∧ old.id = id ∧
            ∀ k, k < j → ∀ o2, st.games[k]? = some o2 → o2.id ≠ id))) ∧
    ((handleUpdateGame st id input (Except.error msg)).2 = false ∧
      (handleUpdateGame st id input (Except.error msg)).1.games = st.games) ∧
    ((handleDeleteGame st id (Except.ok ())).2 = true ∧
      (handleDeleteGame st id (Except.ok ())).1.games.Sublist st.games ∧
      (∀ g ∈ (handleDeleteGame st id (Except.ok ())).1.games, g.id ≠ id) ∧
      (∀ g ∈ st.games, g.id ≠ id →
        g ∈ (handleDeleteGame st id (Except.ok ())).1.games)) ∧
    ((handleDeleteGame st id (Except.error msg)).2 = false ∧
      (handleDeleteGame st id (Except.error msg)).1.games = st.games) := by
  refine ⟨⟨rfl, ?_, ?_⟩, ⟨rfl, rfl⟩, ⟨rfl, ?_, ?_, ?_⟩, ⟨rfl, rfl⟩⟩
  · show (match st.games.findIdx? (fun (g : GameDto) => g.id == id) with
      | some index => st.games.set index g'
      | none => st.games).length = st.games.length
    rcases hfi : st.games.findIdx? (fun (g : GameDto) => g.id == id) with _ | i <;>
      simp [hfi]
  · intro j
    have hgames : (handleUpdateGame st id input (Except.ok g')).1.games =
        (match st.games.findIdx? (fun (g : GameDto) => g.id == id) with
         | some index => st.games.set index g'
         | none => st.games) := rfl
    rw [hgames]
    rcases hfi : st.games.findIdx? (fun (g : GameDto) => g.id == id) with _ | i
    · exact Or.inl rfl
    · obtain ⟨hlen, hidx⟩ := List.findIdx?_eq_some_iff_findIdx_eq.mp hfi
      subst hidx
      by_cases hij : List.findIdx (fun (g : GameDto) => g.id == id) st.games = j
      · subst hij
        right
        refine ⟨List.getElem?_set_self hlen, st.games[List.findIdx
            (fun (g : GameDto) => g.id == id) st.games], List.getElem?_eq_getElem hlen,
          ?_, ?_⟩
        · have hp := @List.findIdx_getElem _ (fun (g : GameDto) => g.id == id)
            st.games hlen
          simpa using hp
        · intro k hk o2 ho2
          have hkl : k < st.games.length := by omega
          have ho2k : o2 = st.games[k] := by
            have hsome := List.getElem?_eq_getElem hkl
            rw [hsome] at ho2
            exact (Option.some_inj.mp ho2).symm
          have hpk := List.not_of_lt_findIdx hk
          simp only [beq_eq_false_iff_ne] at hpk
          rw [ho2k]
          exact hpk
      · exact Or.inl (List.getElem?_set_ne hij)
  · exact List.filter_sublist _
  · intro g hg
    have hmem : g ∈ st.games.filter (fun (g : GameDto) => !(g.id == id)) := hg
    simp only [List.mem_filter, Bool.not_eq_eq_eq_not, Bool.not_true,
      beq_eq_false_iff_ne] at hmem
    exact hmem.2
  · intro g hg hne
    show g ∈ st.games.filter (fun (g : GameDto) => !(g.id == id))
    simp only [List.mem_filter, Bool.not_eq_eq_eq_not, Bool.not_true,
      beq_eq_false_iff_ne]
    exact ⟨hg, hne⟩

/-- Concrete instance of C10: first stored game. -/
def c10gA : GameDto :=
  { id := "a", title := "A", engineType := "renpy", path := "/g/a"
    pathValid := true, runtimeVersion := none, coverPath := none
    createdAt := 0, lastPlayedAt := none }

/-- Concrete instance of C10: second stored game. -/
def c10gB : GameDto :=
  { id := "b", title := "B", engineType := "other", path := "/g/b"
    pathValid := true, runtimeVersion := none, coverPath := none
    createdAt := 0, lastPlayedAt := none }

/-- Concrete instance of C10: store state holding both games. -/
def c10st : GamesState := { games := [c10gA, c10gB], loading := false, error := none }

/-- C10 witness: deleting id `"b"` from the concrete store keeps the
unrelated entry `c10gA`, by the frame theorem applied at that store. -/
theorem useGames_mutations_frame_witness :
    c10gA ∈ (handleDeleteGame c10st "b" (Except.ok ())).1.games :=
  (useGames_mutations_frame c10st "b"
      { title := none, engineType := none, path := none, runtimeVersion := none }
      c10gA "boom").2.2.1.2.2.2 c10gA (by decide) (by decide)

/-- C3: a run of `downloadAndInstall` that fails at any step prior to the
final atomic move reports a failure and leaves both the Registry's engine
rows and the visible install directories exactly as they were. -/
theorem downloadAndInstall_atomic_on_failure (st : AcqState)
    (engineId family flavor version : String) (now : Int) (failAt : InstallStep)
    (h : failAt.beforeMove = true) :
    (downloadAndInstall st engineId family flavor version now (some failAt)).1.isSome = true ∧
    (downloadAndInstall st engineId family flavor version now (some failAt)).2.engines
      = st.engines ∧
    (downloadAndInstall st engineId family flavor version now (some failAt)).2.installDirs
      = st.installDirs := by
  cases failAt <;>
    simp_all [downloadAndInstall, InstallStep.beforeMove]

/-- Concrete instance of C3: an empty acquisition state. -/
def c3State : AcqState := { engines := [], installDirs := [], tempFiles := [] }

/-- C3 witness: a download that fails mid-transfer leaves the empty state's
registry and install directories empty. -/
theorem downloadAndInstall_atomic_on_failure_witness :
    (downloadAndInstall c3State "e1" "nwjs" "normal" "0.90.0" 0
        (some InstallStep.downloading)).1.isSome = true ∧
    (downloadAndInstall c3State "e1" "nwjs" "normal" "0.90.0" 0
        (some InstallStep.downloading)).2.engines = c3State.engines :=
  ⟨(downloadAndInstall_atomic_on_failure c3State "e1" "nwjs" "normal" "0.90.0" 0
      InstallStep.downloading rfl).1,
   (downloadAndInstall_atomic_on_failure c3State "e1" "nwjs" "normal" "0.90.0" 0
      InstallStep.downloading rfl).2.1⟩

/-! ### Scanner lemmas -/

theorem visitReg_mono (fullPath : List String) (hasGame : Bool)
    (reg : List (List String)) (x : List String) (hx : x ∈ reg) :
    x ∈ (visitReg fullPath hasGame reg).2 := by
  unfold visitReg
  split
  · split
    · exact hx
    · exact List.mem_cons_of_mem _ hx
  · exact hx

theorem visitReg_covered (fullPath : List String) (hasGame : Bool)
    (reg : List (List String)) (hg : hasGame = true) :
    fullPath ∈ (visitReg fullPath hasGame reg).2 := by
  subst hg
  unfold visitReg
  simp only [if_true]
  split
  · assumption
  · exact List.mem_cons_self _ _

theorem visitReg_skip (fullPath : List String) (hasGame : Bool)
    (reg : List (List String)) (h : hasGame = true → fullPath ∈ reg) :
    (visitReg fullPath hasGame reg).2 = reg ∧
    (visitReg fullPath hasGame reg).1.2.1 = 0 ∧
    (visitReg fullPath hasGame reg).1.2.2 = (visitReg fullPath hasGame reg).1.1 := by
  cases hasGame with
  | false => simp [visitReg]
  | true =>
    have hmem := h rfl
    simp [visitReg, hmem]

mutual
theorem scanDir_visited_depth_le (m : Nat) (p : List String) (d : Nat)
    (reg : List (List String)) (t : DirTree) (hd : d ≤ m) :
    ∀ e ∈ (scanDir m p d reg t).visited, e.2.1 ≤ m := by
  cases t with
  | node name readable hasGame subs =>
    cases readable with
    | false => intro e he; simp [scanDir] at he
    | true =>
      intro e he
      by_cases hdm : d < m
      · simp only [scanDir, if_true, hdm, List.mem_cons] at he
        rcases he with he | he
        · subst he; exact hd
        · exact scanSubs_visited_depth_le m (p ++ [name]) (d + 1)
            (visitReg (p ++ [name]) hasGame reg).2 subs (by omega) e he
      · simp only [scanDir, if_true, hdm, if_false, List.mem_singleton] at he
        subst he; exact hd

theorem scanSubs_visited_depth_le (m : Nat) (p : List String) (d : Nat)
    (reg : List (List String)) (ts : DirForest) (hd : d ≤ m) :
    ∀ e ∈ (scanSubs m p d reg ts).visited, e.2.1 ≤ m := by
  cases ts with
  | nil => intro e he; simp [scanSubs] at he
  | cons t ts =>
    intro e he
    simp only [scanSubs, List.mem_append] at he
    rcases he with he | he
    · exact scanDir_visited_depth_le m p d reg t hd e he
    · exact scanSubs_visited_depth_le m p d
        (scanDir m p d reg t).registry ts hd e he
end

mutual
theorem scanDir_registry_mono (m : Nat) (p : List String) (d : Nat)
    (reg : List (List String)) (t : DirTree) (x : List String) (hx : x ∈ reg) :
    x ∈ (scanDir m p d reg t).registry := by
  cases t with
  | node name readable hasGame subs =>
    cases readable with
    | false => simpa [scanDir] using hx
    | true =>
      by_cases hdm : d < m
      · simp only [scanDir, if_true, hdm]
        exact scanSubs_registry_mono m (p ++ [name]) (d + 1)
          (visitReg (p ++ [name]) hasGame reg).2 subs x
          (visitReg_mono _ _ _ x hx)
      · simp only [scanDir, if_true, hdm, if_false]
        exact visitReg_mono _ _ _ x hx

theorem scanSubs_registry_mono (m : Nat) (p : List String) (d : Nat)
    (reg : List (List String)) (ts : DirForest) (x : List String) (hx : x ∈ reg) :
    x ∈ (scanSubs m p d reg ts).registry := by
  cases ts with
  | nil => simpa [scanSubs] using hx
  | cons t ts =>
    simp only [scanSubs]
    exact scanSubs_registry_mono m p d (scanDir m p d reg t).registry ts x
      (scanDir_registry_mono m p d reg t x hx)
end

mutual
theorem scanDir_visited_covered (m : Nat) (p : List String) (d : Nat)
    (reg : List (List String)) (t : DirTree) :
    ∀ e ∈ (scanDir m p d reg t).visited, e.2.2 = true →
      e.1 ∈ (scanDir m p d reg t).registry := by
  cases t with
  | node name readable hasGame subs =>
    cases readable with
    | false => intro e he; simp [scanDir] at he
    | true =>
      intro e he hgame
      by_cases hdm : d < m
      · simp only [scanDir, if_true, hdm, List.mem_cons] at he ⊢
        rcases he with he | he
        · subst he
          exact scanSubs_registry_mono m (p ++ [name]) (d + 1) _ subs _
            (visitReg_covered _ _ _ hgame)
        · exact scanDir_visited_covered_subs m (p ++ [name]) (d + 1)
            (visitReg (p ++ [name]) hasGame reg).2 subs e he hgame
      · simp only [scanDir, if_true, hdm, if_false, List.mem_singleton] at he ⊢
        subst he
        exact visitReg_covered _ _ _ hgame

theorem scanDir_visited_covered_subs (m : Nat) (p : List String) (d : Nat)
    (reg : List (List String)) (ts : DirForest) :
    ∀ e ∈ (scanSubs m p d reg ts).visited, e.2.2 = true →
      e.1 ∈ (scanSubs m p d reg ts).registry := by
  cases ts with
  | nil => intro e he; simp [scanSubs] at he
  | cons t ts =>
    intro e he hgame
    simp only [scanSubs, List.mem_append] at he ⊢
    rcases he with he | he
    · exact scanSubs_registry_mono m p d (scanDir m p d reg t).registry ts _
        (scanDir_visited_covered m p d reg t e he hgame)
    · exact scanDir_visited_covered_subs m p d
        (scanDir m p d reg t).registry ts e he hgame
end

mutual
theorem scanDir_visited_indep (m : Nat) (p : List String) (d : Nat)
    (reg reg2 : List (List String)) (t : DirTree) :
    (scanDir m p d reg t).visited = (scanDir m p d reg2 t).visited := by
  cases t with
  | node name readable hasGame subs =>
    cases readable with
    | false => simp [scanDir]
    | true =>
      by_cases hdm : d < m
      · simp only [scanDir, if_true, hdm]
        rw [scanSubs_visited_indep m (p ++ [name]) (d + 1)
          (visitReg (p ++ [name]) hasGame reg).2
          (visitReg (p ++ [name]) hasGame reg2).2 subs]
      · simp only [scanDir, if_true, hdm, if_false]

theorem scanSubs_visited_indep (m : Nat) (p : List String) (d : Nat)
    (reg reg2 : List (List String)) (ts : DirForest) :
    (scanSubs m p d reg ts).visited = (scanSubs m p d reg2 ts).visited := by
  cases ts with
  | nil => simp [scanSubs]
  | cons t ts =>
    simp only [scanSubs]
    rw [scanDir_visited_indep m p d reg reg2 t,
      scanSubs_visited_indep m p d (scanDir m p d reg t).registry
        (scanDir m p d reg2 t).registry ts]
end

mutual
theorem scanDir_skip (m : Nat) (p : List String) (d : Nat)
    (reg : List (List String)) (t : DirTree)
    (h : ∀ e ∈ (scanDir m p d reg t).visited, e.2.2 = true → e.1 ∈ reg) :
    (scanDir m p d reg t).result.imported = 0 ∧
    (scanDir m p d reg t).result.skippedExisting =
      (scanDir m p d reg t).result.foundGames ∧
    (scanDir m p d reg t).registry = reg := by
  cases t with
  | node name readable hasGame subs =>
    cases readable with
    | false => exact ⟨rfl, rfl, rfl⟩
    | true =>
      by_cases hdm : d < m
      · have hhead : hasGame = true → (p ++ [name]) ∈ reg := by
          intro hg
          exact h (p ++ [name], d, hasGame) (by simp [scanDir, hdm]) hg
        obtain ⟨hv2, hvimp, hvskip⟩ := visitReg_skip (p ++ [name]) hasGame reg hhead
        have htail : ∀ e ∈ (scanSubs m (p ++ [name]) (d + 1)
            (visitReg (p ++ [name]) hasGame reg).2 subs).visited,
            e.2.2 = true → e.1 ∈ (visitReg (p ++ [name]) hasGame reg).2 := by
          intro e he hg
          rw [hv2]
          exact h e (by
            simp only [scanDir, if_true, hdm, List.mem_cons]
            right
            exact he) hg
        obtain ⟨h1, h2, h3⟩ := scanSubs_skip m (p ++ [name]) (d + 1)
          (visitReg (p ++ [name]) hasGame reg).2 subs htail
        refine ⟨?_, ?_, ?_⟩
        · simp only [scanDir, if_true, hdm]
          omega
        · simp only [scanDir, if_true, hdm]
          omega
        · simp only [scanDir, if_true, hdm]
          rw [h3, hv2]
      · have hhead : hasGame = true → (p ++ [name]) ∈ reg := by
          intro hg
          exact h (p ++ [name], d, hasGame) (by simp [scanDir, hdm]) hg
        obtain ⟨hv2, hvimp, hvskip⟩ := visitReg_skip (p ++ [name]) hasGame reg hhead
        refine ⟨?_, ?_, ?_⟩
        · simp only [scanDir, if_true, hdm, if_false]
          omega
        · simp only [scanDir, if_true, hdm, if_false]
          omega
        · simp only [scanDir, if_true, hdm, if_false]
          exact hv2

theorem scanSubs_skip (m : Nat) (p : List String) (d : Nat)
    (reg : List (List String)) (ts : DirForest)
    (h : ∀ e ∈ (scanSubs m p d reg ts).visited, e.2.2 = true → e.1 ∈ reg) :
    (scanSubs m p d reg ts).result.imported = 0 ∧
    (scanSubs m p d reg ts).result.skippedExisting =
      (scanSubs m p d reg ts).result.foundGames ∧
    (scanSubs m p d reg ts).registry = reg := by
  cases ts with
  | nil => exact ⟨rfl, rfl, rfl⟩
  | cons t ts =>
    have hh : ∀ e ∈ (scanDir m p d reg t).visited, e.2.2 = true → e.1 ∈ reg := by
      intro e he hg
      exact h e (by simp only [scanSubs, List.mem_append]; left; exact he) hg
    obtain ⟨h1, h2, h3⟩ := scanDir_skip m p d reg t hh
    have hts : ∀ e ∈ (scanSubs m p d (scanDir m p d reg t).registry ts).visited,
        e.2.2 = true → e.1 ∈ (scanDir m p d reg t).registry := by
      intro e he hg
      rw [h3]
      exact h e (by simp only [scanSubs, List.mem_append]; right; exact he) hg
    obtain ⟨h4, h5, h6⟩ := scanSubs_skip m p d (scanDir m p d reg t).registry ts hts
    refine ⟨?_, ?_, ?_⟩
    · simp only [scanSubs]
      omega
    · simp only [scanSubs]
      omega
    · simp only [scanSubs]
      rw [h6, h3]
end

/-- C4: scanning never visits a directory deeper than `maxDepth` below the
root (the root itself is depth 0), and running the identical scan again
from the registry state the first scan produced imports nothing — every
recognized game is counted as already existing instead. -/
theorem scan_depth_bound_and_idempotent :
    (∀ (root : DirTree) (d : Nat) (reg : List (List String)),
      ((scanGames root d reg).visited).all (fun e => decide (e.2.1 ≤ d)) = true) ∧
    (∀ (root : DirTree) (d : Nat) (reg : List (List String)),
      (scanGames root d (scanGames root d reg).registry).result.imported = 0 ∧
      (scanGames root d (scanGames root d reg).registry).result.skippedExisting =
        (scanGames root d (scanGames root d reg).registry).result.foundGames) := by
  constructor
  · intro root d reg
    rw [List.all_eq_true]
    intro e he
    exact decide_eq_true
      (scanDir_visited_depth_le d [] 0 reg root (Nat.zero_le d) e he)
  · intro root d reg
    have hskip := scanDir_skip d [] 0 (scanGames root d reg).registry root ?_
    · exact ⟨hskip.1, hskip.2.1⟩
    · intro e he hg
      rw [scanDir_visited_indep d [] 0 (scanGames root d reg).registry reg root] at he
      exact scanDir_visited_covered d [] 0 reg root e he hg

end GameManager
